import Mathlib

/-!
Shallow embedding of the KatelyaTV user-data persistence layer.

The repository implements one storage contract twice, against two
interchangeable key-value backends:

* Backend A, `KvrocksStorage` (source file with the `KVROCKS_URL`
  singleton client), and
* Backend B, `RedisStorage` (source file with the `REDIS_URL`
  singleton client).

Both talk to an Upstash-protocol key-value store.  We model the store
itself as three association maps (string-typed keys, list-typed keys,
set-typed keys) over a single key space, with the handful of Redis
commands the adapters use (GET/SET/DEL/KEYS/MGET/EXISTS,
LRANGE/LREM/LPUSH/LTRIM, SADD/SREM/SMEMBERS) as pure functions.
Stored values are modelled by `Val`: JSON strings, opaque JSON object
records (play records, favorites, skip configs), the structured
account record of backend A, and typed user-settings records.

Lean 4.14's built-in `String.startsWith` and friends do not reduce in
the kernel, so the few string manipulations the adapters need
(template-literal key construction, glob pattern matching for KEYS,
JavaScript `String.replace` prefix stripping, `String.includes`) are
implemented here directly on the character lists underlying `String`.
-/

/-! ## String helpers (kernel-reducible) -/

/-- JavaScript `String.prototype.replace` with a plain-string pattern:
replace the first occurrence of `pat` (scanning left to right). -/
def replaceFirstAux (pat : List Char) : List Char → List Char
  | [] => []
  | c :: t =>
    if pat.isPrefixOf (c :: t) then (c :: t).drop pat.length
    else c :: replaceFirstAux pat t

/-- `s.replace(pat, '')` as used by the adapters (the pattern occurs at
most once in the keys involved, and JS `replace` with a string pattern
replaces only the first occurrence). -/
def strReplace (s pat : String) : String :=
  ⟨replaceFirstAux pat.data s.data⟩

/-- Whether `pat` occurs as a contiguous substring of `s`
(JavaScript `String.prototype.includes`). -/
def strIncludes (s pat : String) : Bool :=
  go pat.data s.data
where
  go (p : List Char) : List Char → Bool
    | [] => p.isEmpty
    | c :: t => p.isPrefixOf (c :: t) || go p t

/-- Split a glob pattern at its first `*`: returns the part before the
star and, when a star is present, the part after it. -/
def splitStar : List Char → List Char × Option (List Char)
  | [] => ([], none)
  | c :: t =>
    if c = '*' then ([], some t)
    else
      let r := splitStar t
      (c :: r.1, r.2)

/-- Redis `KEYS` glob matching, for the patterns the adapters use:
either a literal key or a pattern with a single `*` wildcard. -/
def globMatch (pat s : String) : Bool :=
  match splitStar pat.data with
  | (p, none) => p == s.data
  | (p, some suf) =>
      p.isPrefixOf s.data && suf.isSuffixOf s.data &&
        p.length + suf.length ≤ s.data.length

/-! ## Data model -/

/-- The five-field user settings record (`UserSettings` in `types.ts`,
reconstructed from `settings.ts` and both adapters). -/
structure UserSettings where
  filter_adult_content : Bool
  theme : String
  language : String
  auto_play : Bool
  video_quality : String
deriving DecidableEq, Repr

/-- `Partial<UserSettings>`: each field optionally present. -/
structure UserSettingsUpdate where
  filter_adult_content : Option Bool
  theme : Option String
  language : Option String
  auto_play : Option Bool
  video_quality : Option String
deriving DecidableEq, Repr

/-- `src/lib/settings.ts`, `mergeUserSettings`: prefer values from the
update, then the current record, then the defaults, field by field
(`partial.f ?? current?.f ?? defaults.f`). -/
def mergeUserSettings (defaults : UserSettings) (current : Option UserSettings)
    (upd : UserSettingsUpdate) : UserSettings :=
  { filter_adult_content :=
      upd.filter_adult_content.getD
        ((current.map UserSettings.filter_adult_content).getD defaults.filter_adult_content)
    theme := upd.theme.getD ((current.map UserSettings.theme).getD defaults.theme)
    language := upd.language.getD ((current.map UserSettings.language).getD defaults.language)
    auto_play := upd.auto_play.getD ((current.map UserSettings.auto_play).getD defaults.auto_play)
    video_quality :=
      upd.video_quality.getD
        ((current.map UserSettings.video_quality).getD defaults.video_quality) }

/-- The structured account record backend A stores at `user:<name>`:
`(username, password, created_at)` (`registerUser` in `KvrocksStorage`). -/
structure UserAccount where
  username : String
  password : String
  created_at : Nat
deriving DecidableEq, Repr

/-- An opaque JSON-serializable object record (play record, favorite,
episode skip config, admin config); the adapters never inspect its
contents, only store and return it. -/
structure JsonObj where
  payload : String
deriving DecidableEq, Repr

/-- A value stored at a string-typed key. -/
inductive Val where
  | vstr (s : String)
  | vobj (o : JsonObj)
  | vacct (a : UserAccount)
  | vsettings (s : UserSettings)
deriving DecidableEq, Repr

/-- JavaScript truthiness of a stored value: the empty string is falsy,
every other value the adapters store (non-empty strings and objects)
is truthy. -/
def truthy : Val → Bool
  | .vstr s => s != ""
  | _ => true

/-- The `val ? val : null` idiom of the adapters' getters. -/
def jsOrNull : Option Val → Option Val
  | some v => if truthy v then some v else none
  | none => none

/-- JavaScript `String(value)` as used by `ensureString`: a string is
itself; any object renders as `[object Object]`. -/
def ensureString : Val → String
  | .vstr s => s
  | _ => "[object Object]"

/-! ## The backend key-value store

One key space; association maps for the three value types the
adapters use.  The head of each association list is the binding in
force; Redis deletes empty lists and sets, which we mirror by treating
a key bound to an empty list/set as absent for `KEYS` enumeration. -/

structure Store where
  strs : List (String × Val)
  lists : List (String × List String)
  sets : List (String × List String)
deriving DecidableEq, Repr

def Store.empty : Store := ⟨[], [], []⟩

/-- Redis `GET`. -/
def sget (st : Store) (k : String) : Option Val :=
  st.strs.lookup k

/-- Redis `SET`. -/
def sset (st : Store) (k : String) (v : Val) : Store :=
  { st with strs := (k, v) :: st.strs.filter (fun p => p.1 != k) }

/-- Redis `DEL` of a single key (removes the key whatever its type). -/
def sdel (st : Store) (k : String) : Store :=
  ⟨st.strs.filter (fun p => p.1 != k),
   st.lists.filter (fun p => p.1 != k),
   st.sets.filter (fun p => p.1 != k)⟩

/-- Redis `DEL key1 key2 ...`. -/
def sdelMany (st : Store) (ks : List String) : Store :=
  ks.foldl sdel st

/-- Redis `EXISTS` (0 or 1 for a single key). -/
def sexists (st : Store) (k : String) : Nat :=
  if (sget st k).isSome then 1 else 0

/-- The keys currently live in the store (empty lists/sets count as
absent, as in Redis). -/
def liveKeys (st : Store) : List String :=
  st.strs.map (fun p => p.1)
    ++ (st.lists.filter (fun p => p.2 != [])).map (fun p => p.1)
    ++ (st.sets.filter (fun p => p.2 != [])).map (fun p => p.1)

/-- Redis `KEYS pattern`. -/
def skeys (st : Store) (pat : String) : List String :=
  (liveKeys st).filter (globMatch pat)

/-- Redis `LRANGE key 0 -1` (the whole list; absent key is empty). -/
def lrange (st : Store) (k : String) : List String :=
  (st.lists.lookup k).getD []

/-- Overwrite the list stored at `k`. -/
def lwrite (st : Store) (k : String) (l : List String) : Store :=
  { st with lists := (k, l) :: st.lists.filter (fun p => p.1 != k) }

/-- Redis `LREM key 0 q`: remove all occurrences of `q`. -/
def lrem (st : Store) (k q : String) : Store :=
  lwrite st k ((lrange st k).filter (fun s => s != q))

/-- Redis `LPUSH key q`. -/
def lpush (st : Store) (k q : String) : Store :=
  lwrite st k (q :: lrange st k)

/-- Redis `LTRIM key 0 stop`: keep indices `0..stop`. -/
def ltrim (st : Store) (k : String) (stop : Nat) : Store :=
  lwrite st k ((lrange st k).take (stop + 1))

/-- Redis `SMEMBERS` (absent key is the empty set). -/
def smembers (st : Store) (k : String) : List String :=
  (st.sets.lookup k).getD []

/-- Redis `SADD key m`. -/
def sadd (st : Store) (k m : String) : Store :=
  let cur := smembers st k
  { st with
    sets := (k, if cur.contains m then cur else cur ++ [m])
      :: st.sets.filter (fun p => p.1 != k) }

/-- Redis `SREM key m`. -/
def srem (st : Store) (k m : String) : Store :=
  { st with
    sets := (k, (smembers st k).filter (fun s => s != m))
      :: st.sets.filter (fun p => p.1 != k) }

/-! ## Backend A: `KvrocksStorage` -/

/-- Search history cap, `SEARCH_HISTORY_LIMIT` (both adapters). -/
def SEARCH_HISTORY_LIMIT : Nat := 20

def kvPrKey (user key : String) : String := "u:" ++ user ++ ":pr:" ++ key

def kvFavKey (user key : String) : String := "u:" ++ user ++ ":fav:" ++ key

def kvSearchHistoryKey (user : String) : String := "u:" ++ user ++ ":search_history"

def kvSkipConfigKey (user key : String) : String := "u:" ++ user ++ ":skip_config:" ++ key

def kvUserKey (user : String) : String := "user:" ++ user

def kvUserListKey : String := "user_list"

def kvUserSettingsKey (user : String) : String := "u:" ++ user ++ ":settings"

/-- `KvrocksStorage.getPlayRecord`: `val ? val : null`. -/
def kvGetPlayRecord (st : Store) (user key : String) : Option Val :=
  jsOrNull (sget st (kvPrKey user key))

/-- `KvrocksStorage.setPlayRecord`. -/
def kvSetPlayRecord (st : Store) (user key : String) (record : JsonObj) : Store :=
  sset st (kvPrKey user key) (.vobj record)

/-- `KvrocksStorage.getAllPlayRecords`: KEYS on the pattern, MGET the
hits, keep truthy values, strip the key prefix. -/
def kvGetAllPlayRecords (st : Store) (user : String) : List (String × Val) :=
  let keys := skeys st ("u:" ++ user ++ ":pr:*")
  keys.filterMap fun k =>
    match sget st k with
    | some v => if truthy v then some (strReplace k ("u:" ++ user ++ ":pr:"), v) else none
    | none => none

/-- `KvrocksStorage.deletePlayRecord`. -/
def kvDeletePlayRecord (st : Store) (user key : String) : Store :=
  sdel st (kvPrKey user key)

/-- `KvrocksStorage.getFavorite`. -/
def kvGetFavorite (st : Store) (user key : String) : Option Val :=
  jsOrNull (sget st (kvFavKey user key))

/-- `KvrocksStorage.setFavorite`. -/
def kvSetFavorite (st : Store) (user key : String) (favorite : JsonObj) : Store :=
  sset st (kvFavKey user key) (.vobj favorite)

/-- `KvrocksStorage.getAllFavorites`. -/
def kvGetAllFavorites (st : Store) (user : String) : List (String × Val) :=
  let keys := skeys st ("u:" ++ user ++ ":fav:*")
  keys.filterMap fun k =>
    match sget st k with
    | some v => if truthy v then some (strReplace k ("u:" ++ user ++ ":fav:"), v) else none
    | none => none

/-- `KvrocksStorage.deleteFavorite`. -/
def kvDeleteFavorite (st : Store) (user key : String) : Store :=
  sdel st (kvFavKey user key)

/-- `KvrocksStorage.getSearchHistory`. -/
def kvGetSearchHistory (st : Store) (user : String) : List String :=
  lrange st (kvSearchHistoryKey user)

/-- `KvrocksStorage.addSearchHistory`: LREM all occurrences, LPUSH,
LTRIM to the first `SEARCH_HISTORY_LIMIT` entries. -/
def kvAddSearchHistory (st : Store) (user query : String) : Store :=
  let key := kvSearchHistoryKey user
  ltrim (lpush (lrem st key query) key query) key (SEARCH_HISTORY_LIMIT - 1)

/-- `KvrocksStorage.deleteSearchHistory`: one entry when a query is
given, the whole list otherwise. -/
def kvDeleteSearchHistory (st : Store) (user : String) (query : Option String) : Store :=
  match query with
  | some q => lrem st (kvSearchHistoryKey user) q
  | none => sdel st (kvSearchHistoryKey user)

/-- `KvrocksStorage.getSkipConfig`. -/
def kvGetSkipConfig (st : Store) (user key : String) : Option Val :=
  jsOrNull (sget st (kvSkipConfigKey user key))

/-- `KvrocksStorage.setSkipConfig`: a single SET of the value key; this
backend maintains no skip-config index set. -/
def kvSetSkipConfig (st : Store) (user key : String) (config : JsonObj) : Store :=
  sset st (kvSkipConfigKey user key) (.vobj config)

/-- `KvrocksStorage.deleteSkipConfig`. -/
def kvDeleteSkipConfig (st : Store) (user key : String) : Store :=
  sdel st (kvSkipConfigKey user key)

/-- `KvrocksStorage.getAllSkipConfigs`: pattern scan, like play records. -/
def kvGetAllSkipConfigs (st : Store) (user : String) : List (String × Val) :=
  let keys := skeys st ("u:" ++ user ++ ":skip_config:*")
  keys.filterMap fun k =>
    match sget st k with
    | some v => if truthy v then some (strReplace k ("u:" ++ user ++ ":skip_config:"), v) else none
    | none => none

/-- `KvrocksStorage.getUser`: `val ? val : null`. -/
def kvGetUser (st : Store) (user : String) : Option Val :=
  jsOrNull (sget st (kvUserKey user))

/-- `KvrocksStorage.setUser`: SET the account record, SADD the username
to the global `user_list` index set. -/
def kvSetUser (st : Store) (user : String) (userData : UserAccount) : Store :=
  sadd (sset st (kvUserKey user) (.vacct userData)) kvUserListKey user

/-- `KvrocksStorage.registerUser` (`created_at: Date.now()` is passed in
as `now`). -/
def kvRegisterUser (st : Store) (user pw : String) (now : Nat) : Store :=
  kvSetUser st user ⟨user, pw, now⟩

/-- `KvrocksStorage.verifyUser`: the JS expression
`userData && userData.password === password`.  When no account exists
(`userData` is `null`) the function returns `null`, not `false`; we
model that JS value as `none`.  `kvGetUser` never returns a falsy
value (its own `val ? val : null` filters those), so a `some` result
here is always the boolean equality test; on a truthy non-account
value the field access yields `undefined`, so the comparison is false. -/
def kvVerifyUser (st : Store) (user pw : String) : Option Bool :=
  match kvGetUser st user with
  | some (.vacct a) => some (a.password == pw)
  | some _ => some false
  | none => none

/-- `KvrocksStorage.checkUserExist`: `userData !== null`. -/
def kvCheckUserExist (st : Store) (user : String) : Bool :=
  (kvGetUser st user).isSome

/-- `KvrocksStorage.changePassword`: only rewrites the account when one
exists (`if (userData) ...`); through this API a `user:<name>` key only
ever holds an account record. -/
def kvChangePassword (st : Store) (user newPassword : String) : Store :=
  match kvGetUser st user with
  | some (.vacct a) => kvSetUser st user { a with password := newPassword }
  | some _ => st
  | none => st

/-- `KvrocksStorage.deleteUser`: DEL the account key, SREM from
`user_list`, then for each per-user pattern KEYS + DEL the hits. -/
def kvDeleteUser (st : Store) (user : String) : Store :=
  let st1 := sdel st (kvUserKey user)
  let st2 := srem st1 kvUserListKey user
  let patterns := ["u:" ++ user ++ ":pr:*", "u:" ++ user ++ ":fav:*",
    "u:" ++ user ++ ":search_history", "u:" ++ user ++ ":skip_config:*"]
  patterns.foldl (fun s pat => sdelMany s (skeys s pat)) st2

/-- Backend A's default settings object (`KvrocksStorage.updateUserSettings`):
note `auto_play := false`. -/
def kvDefaultSettings : UserSettings :=
  ⟨true, "auto", "zh-CN", false, "auto"⟩

/-- `KvrocksStorage.getUserSettings`: `val ? val : null` — `null` when
nothing is stored; a stored value is always a settings record through
this API. -/
def kvGetUserSettings (st : Store) (user : String) : Option UserSettings :=
  match jsOrNull (sget st (kvUserSettingsKey user)) with
  | some (.vsettings s) => some s
  | some _ => none
  | none => none

/-- `KvrocksStorage.setUserSettings`. -/
def kvSetUserSettings (st : Store) (user : String) (s : UserSettings) : Store :=
  sset st (kvUserSettingsKey user) (.vsettings s)

/-- `KvrocksStorage.updateUserSettings`: read current, three-way merge
against this backend's defaults, write back. -/
def kvUpdateUserSettings (st : Store) (user : String) (upd : UserSettingsUpdate) : Store :=
  let current := kvGetUserSettings st user
  kvSetUserSettings st user (mergeUserSettings kvDefaultSettings current upd)

/-! ## Backend B: `RedisStorage` -/

def redisPrKey (user key : String) : String := "u:" ++ user ++ ":pr:" ++ key

def redisFavKey (user key : String) : String := "u:" ++ user ++ ":fav:" ++ key

def redisShKey (user : String) : String := "u:" ++ user ++ ":sh"

def redisUserPwdKey (user : String) : String := "u:" ++ user ++ ":pwd"

def redisUserSettingsKey (user : String) : String := "u:" ++ user ++ ":settings"

def redisSkipConfigKey (user key : String) : String :=
  "katelyatv:skip_config:" ++ user ++ ":" ++ key

def redisSkipConfigsKey (user : String) : String :=
  "katelyatv:skip_configs:" ++ user

/-- `RedisStorage.getPlayRecord`. -/
def redisGetPlayRecord (st : Store) (user key : String) : Option Val :=
  jsOrNull (sget st (redisPrKey user key))

/-- `RedisStorage.setPlayRecord`. -/
def redisSetPlayRecord (st : Store) (user key : String) (record : JsonObj) : Store :=
  sset st (redisPrKey user key) (.vobj record)

/-- `RedisStorage.getAllPlayRecords`. -/
def redisGetAllPlayRecords (st : Store) (user : String) : List (String × Val) :=
  let keys := skeys st ("u:" ++ user ++ ":pr:*")
  keys.filterMap fun k =>
    match sget st k with
    | some v => if truthy v then some (strReplace k ("u:" ++ user ++ ":pr:"), v) else none
    | none => none

/-- `RedisStorage.deletePlayRecord`. -/
def redisDeletePlayRecord (st : Store) (user key : String) : Store :=
  sdel st (redisPrKey user key)

/-- `RedisStorage.getFavorite`. -/
def redisGetFavorite (st : Store) (user key : String) : Option Val :=
  jsOrNull (sget st (redisFavKey user key))

/-- `RedisStorage.setFavorite`. -/
def redisSetFavorite (st : Store) (user key : String) (favorite : JsonObj) : Store :=
  sset st (redisFavKey user key) (.vobj favorite)

/-- `RedisStorage.getAllFavorites`. -/
def redisGetAllFavorites (st : Store) (user : String) : List (String × Val) :=
  let keys := skeys st ("u:" ++ user ++ ":fav:*")
  keys.filterMap fun k =>
    match sget st k with
    | some v => if truthy v then some (strReplace k ("u:" ++ user ++ ":fav:"), v) else none
    | none => none

/-- `RedisStorage.deleteFavorite`. -/
def redisDeleteFavorite (st : Store) (user key : String) : Store :=
  sdel st (redisFavKey user key)

/-- `RedisStorage.registerUser`: a bare password value at a dedicated
key. -/
def redisRegisterUser (st : Store) (user pw : String) : Store :=
  sset st (redisUserPwdKey user) (.vstr pw)

/-- `RedisStorage.verifyUser`:
`stored ? ensureString(stored) === password : false`.  A falsy stored
value (missing key, or the empty string) yields `false`. -/
def redisVerifyUser (st : Store) (user pw : String) : Bool :=
  match sget st (redisUserPwdKey user) with
  | some v => if truthy v then ensureString v == pw else false
  | none => false

/-- `RedisStorage.checkUserExist`: `EXISTS === 1`. -/
def redisCheckUserExist (st : Store) (user : String) : Bool :=
  sexists st (redisUserPwdKey user) == 1

/-- `RedisStorage.changePassword`: an unconditional SET of the password
key, creating it when absent. -/
def redisChangePassword (st : Store) (user newPassword : String) : Store :=
  sset st (redisUserPwdKey user) (.vstr newPassword)

/-- `RedisStorage.deleteUser`: DEL the password key and search history,
KEYS + DEL the play-record and favorite patterns, DEL the settings key.
The skip-config value keys and the skip-config index set are not
touched. -/
def redisDeleteUser (st : Store) (user : String) : Store :=
  let st1 := sdel st (redisUserPwdKey user)
  let st2 := sdel st1 (redisShKey user)
  let st3 := sdelMany st2 (skeys st2 ("u:" ++ user ++ ":pr:*"))
  let st4 := sdelMany st3 (skeys st3 ("u:" ++ user ++ ":fav:*"))
  sdel st4 (redisUserSettingsKey user)

/-- Backend B's default settings object (`RedisStorage.getUserSettings`
and `RedisStorage.updateUserSettings`): note `auto_play := true`. -/
def redisDefaultSettings : UserSettings :=
  ⟨true, "auto", "zh-CN", true, "auto"⟩

/-- `RedisStorage.getUserSettings`: returns a full default settings
object when nothing (or a falsy value) is stored; a stored value is
always a settings record through this API. -/
def redisGetUserSettings (st : Store) (user : String) : Option UserSettings :=
  match jsOrNull (sget st (redisUserSettingsKey user)) with
  | some (.vsettings s) => some s
  | some _ => none
  | none => some redisDefaultSettings

/-- `RedisStorage.setUserSettings`. -/
def redisSetUserSettings (st : Store) (user : String) (s : UserSettings) : Store :=
  sset st (redisUserSettingsKey user) (.vsettings s)

/-- `RedisStorage.updateUserSettings`: read current (which already
defaults), three-way merge against this backend's defaults, write
back. -/
def redisUpdateUserSettings (st : Store) (user : String) (upd : UserSettingsUpdate) : Store :=
  let current := redisGetUserSettings st user
  redisSetUserSettings st user (mergeUserSettings redisDefaultSettings current upd)

/-- `RedisStorage.getSearchHistory`. -/
def redisGetSearchHistory (st : Store) (user : String) : List String :=
  lrange st (redisShKey user)

/-- `RedisStorage.addSearchHistory`: LREM, LPUSH, LTRIM (each in its
own retry wrapper; sequentially the same composition as backend A). -/
def redisAddSearchHistory (st : Store) (user keyword : String) : Store :=
  let key := redisShKey user
  ltrim (lpush (lrem st key keyword) key keyword) key (SEARCH_HISTORY_LIMIT - 1)

/-- `RedisStorage.deleteSearchHistory`. -/
def redisDeleteSearchHistory (st : Store) (user : String) (keyword : Option String) : Store :=
  match keyword with
  | some q => lrem st (redisShKey user) q
  | none => sdel st (redisShKey user)

/-- `RedisStorage.getSkipConfig`. -/
def redisGetSkipConfig (st : Store) (user key : String) : Option Val :=
  jsOrNull (sget st (redisSkipConfigKey user key))

/-- `RedisStorage.setSkipConfig`: SET the value key and SADD the
sub-key to the per-user skip-config index set. -/
def redisSetSkipConfig (st : Store) (user key : String) (config : JsonObj) : Store :=
  sadd (sset st (redisSkipConfigKey user key) (.vobj config)) (redisSkipConfigsKey user) key

/-- `RedisStorage.getAllSkipConfigs`: SMEMBERS of the index set, then
GET each sub-key, keeping truthy hits. -/
def redisGetAllSkipConfigs (st : Store) (user : String) : List (String × Val) :=
  (smembers st (redisSkipConfigsKey user)).filterMap fun k =>
    match sget st (redisSkipConfigKey user k) with
    | some v => if truthy v then some (k, v) else none
    | none => none

/-- `RedisStorage.deleteSkipConfig`: DEL the value key and SREM the
sub-key from the index set. -/
def redisDeleteSkipConfig (st : Store) (user key : String) : Store :=
  srem (sdel st (redisSkipConfigKey user key)) (redisSkipConfigsKey user) key

/-! ## The retry wrapper `withRetry` (identical in both adapters) -/

/-- The observable part of a JavaScript error: its `message` and `code`
fields, either possibly absent. -/
structure JsErr where
  message : Option String
  code : Option String
deriving DecidableEq, Repr

/-- The transient-failure classification in `withRetry`:
`err.message?.includes('Connection' | 'ECONNREFUSED' | 'ENOTFOUND')
 || err.code === 'ECONNRESET' || err.code === 'EPIPE'`. -/
def isConnectionError (e : JsErr) : Bool :=
  (match e.message with
   | some m => strIncludes m "Connection" || strIncludes m "ECONNREFUSED"
       || strIncludes m "ENOTFOUND"
   | none => false)
  || e.code == some "ECONNRESET" || e.code == some "EPIPE"

/-- Outcome of a `withRetry` run: the final result, how many times the
operation was executed, and the total milliseconds spent waiting
between attempts. -/
structure RetryResult (α : Type) where
  result : Except JsErr α
  execs : Nat
  waited : Nat
deriving Repr

/-- The `for (let i = 0; i < maxRetries; i++)` loop of `withRetry`.
`attempts i` is what the wrapped operation does on its `i`-th
execution (0-based).  The fuel argument equals `maxRetries - i` and
only drives structural recursion; falling out of the loop is the
final `throw new Error('Max retries exceeded')`. -/
def withRetryGo {α : Type} (attempts : Nat → Except JsErr α) (maxRetries : Nat) :
    Nat → Nat → Nat → RetryResult α
  | 0, i, waited => ⟨.error ⟨some "Max retries exceeded", none⟩, i, waited⟩
  | fuel + 1, i, waited =>
    match attempts i with
    | .ok v => ⟨.ok v, i + 1, waited⟩
    | .error e =>
      let isLastAttempt := i == maxRetries - 1
      if isConnectionError e && !isLastAttempt then
        withRetryGo attempts maxRetries fuel (i + 1) (waited + 1000 * (i + 1))
      else ⟨.error e, i + 1, waited⟩

/-- `withRetry(operation, maxRetries = 3)`. -/
def withRetry {α : Type} (attempts : Nat → Except JsErr α) (maxRetries : Nat := 3) :
    RetryResult α :=
  withRetryGo attempts maxRetries maxRetries 0 0


/-! ## Operation sequences and claim-specific inputs -/

/-- A search-history operation of the storage contract. -/
inductive ShOp where
  | add (q : String)
  | delOne (q : String)
  | delAll
deriving DecidableEq, Repr

/-- Apply one search-history operation through backend A. -/
def kvApplyShOp (user : String) (st : Store) : ShOp → Store
  | .add q => kvAddSearchHistory st user q
  | .delOne q => kvDeleteSearchHistory st user (some q)
  | .delAll => kvDeleteSearchHistory st user none

/-- Apply one search-history operation through backend B. -/
def redisApplyShOp (user : String) (st : Store) : ShOp → Store
  | .add q => redisAddSearchHistory st user q
  | .delOne q => redisDeleteSearchHistory st user (some q)
  | .delAll => redisDeleteSearchHistory st user none

/-- The pure effect of `addSearchHistory` on the stored list (both
backends): remove every occurrence, prepend, truncate to the limit. -/
def addSearchHistoryList (l : List String) (q : String) : List String :=
  (q :: l.filter (fun s => s != q)).take SEARCH_HISTORY_LIMIT

/-- The pure effect of one search-history operation on the stored list. -/
def shApply (l : List String) : ShOp → List String
  | .add q => addSearchHistoryList l q
  | .delOne q => l.filter (fun s => s != q)
  | .delAll => []

/-- A skip-config write or delete for one user (backend B). -/
inductive SkipOp where
  | setCfg (key : String) (config : JsonObj)
  | delCfg (key : String)
deriving DecidableEq, Repr

/-- Apply one skip-config operation through backend B. -/
def redisApplySkipOp (user : String) (st : Store) : SkipOp → Store
  | .setCfg key config => redisSetSkipConfig st user key config
  | .delCfg key => redisDeleteSkipConfig st user key

/-- The concrete update of the spec scenario: update only the theme,
to `"dark"`. -/
def themeDark : UserSettingsUpdate := ⟨none, some "dark", none, none, none⟩

/-- A concrete skip config (the spec scenario has intro end 90 and
outro start 1300; its contents are opaque to the adapters). -/
def c1Cfg : JsonObj := ⟨"introEnd 90 outroStart 1300"⟩

def c1Rec : JsonObj := ⟨"a play record"⟩

def c1Fav : JsonObj := ⟨"a favorite"⟩

/-- Backend B store holding one play record, one favorite, one search
history entry and one skip config for user `bob`. -/
def c1RedisStore : Store :=
  redisSetSkipConfig
    (redisAddSearchHistory
      (redisSetFavorite
        (redisSetPlayRecord (redisRegisterUser Store.empty "bob" "pw") "bob" "k1" c1Rec)
        "bob" "f1" c1Fav)
      "bob" "query1")
    "bob" "ep1" c1Cfg

/-- Backend B store after `deleteUser("bob")`. -/
def c1RedisAfter : Store := redisDeleteUser c1RedisStore "bob"

/-- Backend A store with the same contents for user `bob`. -/
def c1KvStore : Store :=
  kvSetSkipConfig
    (kvAddSearchHistory
      (kvSetFavorite
        (kvSetPlayRecord (kvRegisterUser Store.empty "bob" "pw" 0) "bob" "k1" c1Rec)
        "bob" "f1" c1Fav)
      "bob" "query1")
    "bob" "ep1" c1Cfg

/-- Backend A store after `deleteUser("bob")`. -/
def c1KvAfter : Store := kvDeleteUser c1KvStore "bob"

/-- Backend B's skip-config index-set exactness for one user: a
sub-key is in the index set exactly when a config value is stored for
it. -/
def skipIndexExact (user : String) (st : Store) : Prop :=
  ∀ k, k ∈ smembers st (redisSkipConfigsKey user)
    ↔ (sget st (redisSkipConfigKey user k)).isSome = true

/-! ## Core store lemmas -/

theorem lookup_cons_self {α : Type} (k : String) (v : α) (l : List (String × α)) :
    (((k, v) :: l).lookup k) = some v := by
  simp [List.lookup]

theorem lookup_cons_ne {α : Type} {k k' : String} (v : α) (l : List (String × α))
    (h : k' ≠ k) : (((k, v) :: l).lookup k') = l.lookup k' := by
  simp [List.lookup, beq_false_of_ne h]

theorem lookup_filter_self {α : Type} (l : List (String × α)) (k : String) :
    ((l.filter (fun p => p.1 != k)).lookup k) = none := by
  induction l with
  | nil => rfl
  | cons p t ih =>
    by_cases h : p.1 = k
    · simp [List.filter, h, ih]
    · simp only [List.filter]
      rw [show (p.1 != k) = true by simp [bne_iff_ne, h]]
      rw [List.lookup, show (k == p.1) = false by simp [beq_eq_false_iff_ne]; exact fun hh => h hh.symm]
      exact ih

theorem lookup_filter_ne {α : Type} (l : List (String × α)) {k k' : String}
    (h : k' ≠ k) : ((l.filter (fun p => p.1 != k)).lookup k') = l.lookup k' := by
  induction l with
  | nil => rfl
  | cons p t ih =>
    by_cases hp : p.1 = k
    · subst hp
      simp only [List.filter, bne_self_eq_false]
      rw [List.lookup, show (k' == p.1) = false from beq_false_of_ne h]
      exact ih
    · simp only [List.filter]
      rw [show (p.1 != k) = true by simp [bne_iff_ne, hp]]
      by_cases hk : k' = p.1
      · subst hk
        simp [List.lookup]
      · rw [List.lookup, List.lookup, show (k' == p.1) = false from beq_false_of_ne hk]
        exact ih

theorem sget_sset_self (st : Store) (k : String) (v : Val) :
    sget (sset st k v) k = some v := by
  simp [sget, sset, lookup_cons_self]

theorem sget_sset_ne (st : Store) {k k' : String} (v : Val) (h : k' ≠ k) :
    sget (sset st k v) k' = sget st k' := by
  simp [sget, sset]
  rw [lookup_cons_ne _ _ h, lookup_filter_ne _ h]

theorem sget_sdel_self (st : Store) (k : String) :
    sget (sdel st k) k = none := by
  simp [sget, sdel, lookup_filter_self]

theorem sget_sdel_ne (st : Store) {k k' : String} (h : k' ≠ k) :
    sget (sdel st k) k' = sget st k' := by
  simp [sget, sdel]
  rw [lookup_filter_ne _ h]

theorem sget_lwrite (st : Store) (k k' : String) (l : List String) :
    sget (lwrite st k l) k' = sget st k' := rfl

theorem sget_sadd (st : Store) (k m k' : String) :
    sget (sadd st k m) k' = sget st k' := rfl

theorem sget_srem (st : Store) (k m k' : String) :
    sget (srem st k m) k' = sget st k' := rfl

theorem lrange_lwrite_self (st : Store) (k : String) (l : List String) :
    lrange (lwrite st k l) k = l := by
  simp [lrange, lwrite, lookup_cons_self]

theorem lrange_sdel_self (st : Store) (k : String) :
    lrange (sdel st k) k = [] := by
  simp [lrange, sdel, lookup_filter_self]

theorem lrange_sset (st : Store) (k : String) (v : Val) (k' : String) :
    lrange (sset st k v) k' = lrange st k' := rfl

theorem smembers_sset (st : Store) (k : String) (v : Val) (k' : String) :
    smembers (sset st k v) k' = smembers st k' := rfl

theorem smembers_lwrite (st : Store) (k : String) (l : List String) (k' : String) :
    smembers (lwrite st k l) k' = smembers st k' := rfl

theorem smembers_sadd_self (st : Store) (k m : String) :
    smembers (sadd st k m) k
      = (if (smembers st k).contains m then smembers st k else smembers st k ++ [m]) := by
  simp only [sadd, smembers]
  rw [lookup_cons_self]
  rfl

theorem smembers_sadd_ne (st : Store) (k m : String) {k' : String} (h : k' ≠ k) :
    smembers (sadd st k m) k' = smembers st k' := by
  simp only [sadd, smembers]
  rw [lookup_cons_ne _ _ h, lookup_filter_ne _ h]

theorem smembers_srem_self (st : Store) (k m : String) :
    smembers (srem st k m) k = (smembers st k).filter (fun s => s != m) := by
  simp only [srem, smembers]
  rw [lookup_cons_self]
  rfl

theorem smembers_srem_ne (st : Store) (k m : String) {k' : String} (h : k' ≠ k) :
    smembers (srem st k m) k' = smembers st k' := by
  simp only [srem, smembers]
  rw [lookup_cons_ne _ _ h, lookup_filter_ne _ h]

theorem smembers_sdel_ne (st : Store) (k : String) {k' : String} (h : k' ≠ k) :
    smembers (sdel st k) k' = smembers st k' := by
  simp only [sdel, smembers]
  rw [lookup_filter_ne _ h]

/-- Appending to a fixed string on the left is injective. -/
theorem strAppend_right_inj (a : String) {b c : String} :
    a ++ b = a ++ c ↔ b = c := by
  constructor
  · intro h
    have hd : (a ++ b).data = (a ++ c).data := congrArg String.data h
    have : a.data ++ b.data = a.data ++ c.data := hd
    have hbc := List.append_cancel_left this
    cases b; cases c
    exact congrArg String.mk hbc
  · intro h; rw [h]

/-! ## Settings merge lemmas -/

/-- A present current record makes the defaults irrelevant. -/
theorem mergeUserSettings_some_irrel (d1 d2 s : UserSettings) (upd : UserSettingsUpdate) :
    mergeUserSettings d1 (some s) upd = mergeUserSettings d2 (some s) upd := by
  simp [mergeUserSettings]

/-- Merging with the defaults themselves as the current record is the
same as merging with no current record. -/
theorem mergeUserSettings_current_self (d : UserSettings) (upd : UserSettingsUpdate) :
    mergeUserSettings d (some d) upd = mergeUserSettings d none upd := by
  simp [mergeUserSettings]

/-- C8: `mergeUserSettings(defaults, current, partial)` resolves each of
the five settings fields independently, with precedence update over
current over defaults: for every field the output is the update's
value when defined, else the current record's value when a current
record exists, else the defaults' value — all three precedence cases
for all five fields. -/
theorem mergeUserSettings_precedence (defaults : UserSettings)
    (current : Option UserSettings) (upd : UserSettingsUpdate) :
    ((∀ b, upd.filter_adult_content = some b →
        (mergeUserSettings defaults current upd).filter_adult_content = b)
      ∧ (∀ c, upd.filter_adult_content = none → current = some c →
        (mergeUserSettings defaults current upd).filter_adult_content = c.filter_adult_content)
      ∧ (upd.filter_adult_content = none → current = none →
        (mergeUserSettings defaults current upd).filter_adult_content
          = defaults.filter_adult_content))
  ∧ ((∀ b, upd.theme = some b → (mergeUserSettings defaults current upd).theme = b)
      ∧ (∀ c, upd.theme = none → current = some c →
        (mergeUserSettings defaults current upd).theme = c.theme)
      ∧ (upd.theme = none → current = none →
        (mergeUserSettings defaults current upd).theme = defaults.theme))
  ∧ ((∀ b, upd.language = some b → (mergeUserSettings defaults current upd).language = b)
      ∧ (∀ c, upd.language = none → current = some c →
        (mergeUserSettings defaults current upd).language = c.language)
      ∧ (upd.language = none → current = none →
        (mergeUserSettings defaults current upd).language = defaults.language))
  ∧ ((∀ b, upd.auto_play = some b → (mergeUserSettings defaults current upd).auto_play = b)
      ∧ (∀ c, upd.auto_play = none → current = some c →
        (mergeUserSettings defaults current upd).auto_play = c.auto_play)
      ∧ (upd.auto_play = none → current = none →
        (mergeUserSettings defaults current upd).auto_play = defaults.auto_play))
  ∧ ((∀ b, upd.video_quality = some b →
        (mergeUserSettings defaults current upd).video_quality = b)
      ∧ (∀ c, upd.video_quality = none → current = some c →
        (mergeUserSettings defaults current upd).video_quality = c.video_quality)
      ∧ (upd.video_quality = none → current = none →
        (mergeUserSettings defaults current upd).video_quality = defaults.video_quality)) := by
  refine ⟨⟨?_, ?_, ?_⟩, ⟨?_, ?_, ?_⟩, ⟨?_, ?_, ?_⟩, ⟨?_, ?_, ?_⟩, ⟨?_, ?_, ?_⟩⟩ <;>
    intros <;> simp_all [mergeUserSettings]

/-- Witness for C8: one concrete instance of each precedence level. -/
theorem mergeUserSettings_precedence_witness :
    (mergeUserSettings kvDefaultSettings (some redisDefaultSettings) themeDark).theme = "dark"
  ∧ (mergeUserSettings kvDefaultSettings (some redisDefaultSettings) themeDark).auto_play = true
  ∧ (mergeUserSettings kvDefaultSettings none themeDark).auto_play = false := by
  have h1 := mergeUserSettings_precedence kvDefaultSettings (some redisDefaultSettings) themeDark
  have h2 := mergeUserSettings_precedence kvDefaultSettings none themeDark
  exact ⟨h1.2.1.1 "dark" rfl, h1.2.2.2.1.2.1 redisDefaultSettings rfl rfl,
    h2.2.2.2.1.2.2 rfl rfl⟩

/-! ## Roundtrip laws (C9) -/

/-- C9: for every store state, user, content key and record, and for
each keyed entity kind (play records, favorites, skip configs) on each
backend, `set` then `get` for the same user and key returns the record
written, and `delete` then `get` returns null (`none`). -/
theorem set_get_delete_roundtrip (st : Store) (user key : String) (record : JsonObj) :
    (kvGetPlayRecord (kvSetPlayRecord st user key record) user key = some (.vobj record)
      ∧ kvGetPlayRecord (kvDeletePlayRecord st user key) user key = none)
  ∧ (kvGetFavorite (kvSetFavorite st user key record) user key = some (.vobj record)
      ∧ kvGetFavorite (kvDeleteFavorite st user key) user key = none)
  ∧ (kvGetSkipConfig (kvSetSkipConfig st user key record) user key = some (.vobj record)
      ∧ kvGetSkipConfig (kvDeleteSkipConfig st user key) user key = none)
  ∧ (redisGetPlayRecord (redisSetPlayRecord st user key record) user key = some (.vobj record)
      ∧ redisGetPlayRecord (redisDeletePlayRecord st user key) user key = none)
  ∧ (redisGetFavorite (redisSetFavorite st user key record) user key = some (.vobj record)
      ∧ redisGetFavorite (redisDeleteFavorite st user key) user key = none)
  ∧ (redisGetSkipConfig (redisSetSkipConfig st user key record) user key = some (.vobj record)
      ∧ redisGetSkipConfig (redisDeleteSkipConfig st user key) user key = none) := by
  refine ⟨⟨?_, ?_⟩, ⟨?_, ?_⟩, ⟨?_, ?_⟩, ⟨?_, ?_⟩, ⟨?_, ?_⟩, ⟨?_, ?_⟩⟩
  · simp [kvGetPlayRecord, kvSetPlayRecord, jsOrNull, sget_sset_self, truthy]
  · simp [kvGetPlayRecord, kvDeletePlayRecord, jsOrNull, sget_sdel_self]
  · simp [kvGetFavorite, kvSetFavorite, jsOrNull, sget_sset_self, truthy]
  · simp [kvGetFavorite, kvDeleteFavorite, jsOrNull, sget_sdel_self]
  · simp [kvGetSkipConfig, kvSetSkipConfig, jsOrNull, sget_sset_self, truthy]
  · simp [kvGetSkipConfig, kvDeleteSkipConfig, jsOrNull, sget_sdel_self]
  · simp [redisGetPlayRecord, redisSetPlayRecord, jsOrNull, sget_sset_self, truthy]
  · simp [redisGetPlayRecord, redisDeletePlayRecord, jsOrNull, sget_sdel_self]
  · simp [redisGetFavorite, redisSetFavorite, jsOrNull, sget_sset_self, truthy]
  · simp [redisGetFavorite, redisDeleteFavorite, jsOrNull, sget_sdel_self]
  · simp [redisGetSkipConfig, redisSetSkipConfig, jsOrNull, sget_sadd, sget_sset_self, truthy]
  · simp [redisGetSkipConfig, redisDeleteSkipConfig, jsOrNull, sget_srem, sget_sdel_self]

/-! ## User settings reads (C2) -/

/-- Counterexample for C2 as stated: on backend A, with nothing stored
for the user, `getUserSettings` returns null (`none`), not a fully
populated default settings object. -/
theorem kvrocks_getUserSettings_null_cex :
    kvGetUserSettings Store.empty "alice" = none
  ∧ kvGetUserSettings Store.empty "alice" ≠ some kvDefaultSettings := by
  exact ⟨by decide, by decide⟩

/-- C2 amended: backend B's `getUserSettings` synthesizes the fully
populated default settings object when nothing is stored, and returns
the stored record otherwise; backend A's `getUserSettings` returns
null (`none`) when nothing is stored, and the stored record otherwise. -/
theorem getUserSettings_defaults_amended (st : Store) (user : String) :
    (sget st (redisUserSettingsKey user) = none →
      redisGetUserSettings st user = some redisDefaultSettings)
  ∧ (∀ s, sget st (redisUserSettingsKey user) = some (.vsettings s) →
      redisGetUserSettings st user = some s)
  ∧ (sget st (kvUserSettingsKey user) = none → kvGetUserSettings st user = none)
  ∧ (∀ s, sget st (kvUserSettingsKey user) = some (.vsettings s) →
      kvGetUserSettings st user = some s) := by
  refine ⟨?_, ?_, ?_, ?_⟩
  · intro h; simp [redisGetUserSettings, jsOrNull, h]
  · intro s h; simp [redisGetUserSettings, jsOrNull, h, truthy]
  · intro h; simp [kvGetUserSettings, jsOrNull, h]
  · intro s h; simp [kvGetUserSettings, jsOrNull, h, truthy]

/-- Witness for C2 (amended), at the empty store. -/
theorem getUserSettings_defaults_amended_witness :
    redisGetUserSettings Store.empty "alice" = some redisDefaultSettings
  ∧ kvGetUserSettings Store.empty "alice" = none := by
  have h := getUserSettings_defaults_amended Store.empty "alice"
  exact ⟨h.1 rfl, h.2.2.1 rfl⟩

/-! ## Credential checks (C5) -/

/-- Counterexample for C5 as stated: on backend A, `verifyUser` for a
missing account returns JS `null` (modelled `none`), not the boolean
`false`; and on backend B an account registered with the empty-string
password makes `verifyUser` return `false` even though the account
exists and the stored password equals the given one. -/
theorem verifyUser_nonboolean_cex :
    kvVerifyUser Store.empty "alice" "p1" = none
  ∧ kvVerifyUser Store.empty "alice" "p1" ≠ some false
  ∧ redisCheckUserExist (redisRegisterUser Store.empty "bob" "") "bob" = true
  ∧ redisVerifyUser (redisRegisterUser Store.empty "bob" "") "bob" "" = false := by
  exact ⟨by decide, by decide, by decide, by decide⟩

/-- C5 amended: `verifyUser` never throws on a mismatch.  On backend A
it returns null (`none`) when no account exists and otherwise the
boolean equality of the stored and given passwords; on backend B it
returns a boolean that is true exactly when a non-empty password is
stored and equals the given one.  The concrete register / verify /
changePassword / re-verify scenario for `alice` holds on both
backends. -/
theorem verifyUser_semantics_amended (st : Store) (user pw : String) :
    (kvGetUser st user = none → kvVerifyUser st user pw = none)
  ∧ (∀ a, kvGetUser st user = some (.vacct a) →
      kvVerifyUser st user pw = some (a.password == pw))
  ∧ (sget st (redisUserPwdKey user) = none → redisVerifyUser st user pw = false)
  ∧ (∀ s, sget st (redisUserPwdKey user) = some (.vstr s) →
      redisVerifyUser st user pw = (s != "" && s == pw))
  ∧ (kvVerifyUser (kvRegisterUser Store.empty "alice" "p1" 0) "alice" "p1" = some true
      ∧ kvVerifyUser (kvChangePassword (kvRegisterUser Store.empty "alice" "p1" 0)
          "alice" "p2") "alice" "p1" = some false
      ∧ kvVerifyUser (kvChangePassword (kvRegisterUser Store.empty "alice" "p1" 0)
          "alice" "p2") "alice" "p2" = some true)
  ∧ (redisVerifyUser (redisRegisterUser Store.empty "alice" "p1") "alice" "p1" = true
      ∧ redisVerifyUser (redisChangePassword (redisRegisterUser Store.empty "alice" "p1")
          "alice" "p2") "alice" "p1" = false
      ∧ redisVerifyUser (redisChangePassword (redisRegisterUser Store.empty "alice" "p1")
          "alice" "p2") "alice" "p2" = true) := by
  refine ⟨?_, ?_, ?_, ?_, ⟨by decide, by decide, by decide⟩, ⟨by decide, by decide, by decide⟩⟩
  · intro h; simp [kvVerifyUser, h]
  · intro a h; simp [kvVerifyUser, h]
  · intro h; simp [redisVerifyUser, h]
  · intro s h
    by_cases hs : s = ""
    · subst hs; simp [redisVerifyUser, h, truthy]
    · simp [redisVerifyUser, h, truthy, ensureString, hs]

/-- Witness for C5 (amended), at concrete stores. -/
theorem verifyUser_semantics_amended_witness :
    kvVerifyUser Store.empty "dave" "x" = none
  ∧ redisVerifyUser (redisRegisterUser Store.empty "erin" "s3") "erin" "s3" = true := by
  have h1 := verifyUser_semantics_amended Store.empty "dave" "x"
  have h2 := verifyUser_semantics_amended (redisRegisterUser Store.empty "erin" "s3") "erin" "s3"
  refine ⟨h1.1 rfl, ?_⟩
  rw [h2.2.2.2.1 "s3" (by decide)]
  decide

/-! ## Password change divergence (C10) -/

/-- Counterexample for C10 as stated: the claim asserts that after
backend B's `changePassword` for a nonexistent user, `verifyUser` with
the new password returns true for every username and password; with
the empty string as the new password it returns false. -/
theorem redis_changePassword_empty_password_cex :
    redisCheckUserExist (redisChangePassword Store.empty "ghost" "") "ghost" = true
  ∧ redisVerifyUser (redisChangePassword Store.empty "ghost" "") "ghost" "" = false := by
  exact ⟨by decide, by decide⟩

/-- C10 amended: for a username with no existing account, backend A's
`changePassword` leaves the store unchanged (so `checkUserExist` stays
false), while backend B's `changePassword` unconditionally creates the
credential entry: `checkUserExist` afterwards returns true, and
`verifyUser` with the new password returns true provided the new
password is non-empty. -/
theorem changePassword_divergence_amended (st : Store) (user npw : String) :
    (kvGetUser st user = none →
      kvChangePassword st user npw = st
        ∧ kvCheckUserExist (kvChangePassword st user npw) user = false)
  ∧ redisCheckUserExist (redisChangePassword st user npw) user = true
  ∧ (npw ≠ "" →
      redisVerifyUser (redisChangePassword st user npw) user npw = true) := by
  refine ⟨?_, ?_, ?_⟩
  · intro h
    refine ⟨by simp [kvChangePassword, h], ?_⟩
    simp [kvCheckUserExist, kvChangePassword, h]
  · simp [redisCheckUserExist, redisChangePassword, sexists, sget_sset_self]
  · intro h
    simp [redisVerifyUser, redisChangePassword, sget_sset_self, truthy, ensureString, h]

/-- Witness for C10 (amended), at the empty store. -/
theorem changePassword_divergence_amended_witness :
    kvChangePassword Store.empty "carol" "q1" = Store.empty
  ∧ kvCheckUserExist (kvChangePassword Store.empty "carol" "q1") "carol" = false
  ∧ redisVerifyUser (redisChangePassword Store.empty "carol" "q1") "carol" "q1" = true := by
  have h := changePassword_divergence_amended Store.empty "carol" "q1"
  exact ⟨(h.1 rfl).1, (h.1 rfl).2, h.2.2 (by decide)⟩

/-! ## updateUserSettings across backends (C4) -/

/-- Counterexample for C4 as stated: on a user with no stored settings,
`updateUserSettings(theme dark)` writes records that differ between
the two backends (the default `auto_play` is false on backend A and
true on backend B). -/
theorem updateUserSettings_auto_play_cex :
    sget (kvUpdateUserSettings Store.empty "alice" themeDark) (kvUserSettingsKey "alice")
      ≠ sget (redisUpdateUserSettings Store.empty "alice" themeDark)
          (redisUserSettingsKey "alice")
  ∧ sget (kvUpdateUserSettings Store.empty "alice" themeDark) (kvUserSettingsKey "alice")
      = some (.vsettings ⟨true, "dark", "zh-CN", false, "auto"⟩)
  ∧ sget (redisUpdateUserSettings Store.empty "alice" themeDark)
        (redisUserSettingsKey "alice")
      = some (.vsettings ⟨true, "dark", "zh-CN", true, "auto"⟩) := by
  exact ⟨by decide, by decide, by decide⟩

/-- C4 amended: when the user has stored settings, the two backends'
`updateUserSettings` write identical records for the same stored state
and the same update.  When nothing is stored they write their own
defaults merged with the update; the two written records then agree on
every field except `auto_play`, whose default is false on backend A
and true on backend B, so `updateUserSettings(theme dark)` yields each
backend's defaults-except-theme record rather than a common one. -/
theorem updateUserSettings_cross_backend_amended (st : Store) (user : String)
    (upd : UserSettingsUpdate) :
    (∀ s, sget st (kvUserSettingsKey user) = some (.vsettings s) →
      sget (kvUpdateUserSettings st user upd) (kvUserSettingsKey user)
        = sget (redisUpdateUserSettings st user upd) (redisUserSettingsKey user))
  ∧ (sget st (kvUserSettingsKey user) = none →
      sget (kvUpdateUserSettings st user upd) (kvUserSettingsKey user)
          = some (.vsettings (mergeUserSettings kvDefaultSettings none upd))
        ∧ sget (redisUpdateUserSettings st user upd) (redisUserSettingsKey user)
          = some (.vsettings (mergeUserSettings redisDefaultSettings none upd))
        ∧ (mergeUserSettings kvDefaultSettings none upd).filter_adult_content
          = (mergeUserSettings redisDefaultSettings none upd).filter_adult_content
        ∧ (mergeUserSettings kvDefaultSettings none upd).theme
          = (mergeUserSettings redisDefaultSettings none upd).theme
        ∧ (mergeUserSettings kvDefaultSettings none upd).language
          = (mergeUserSettings redisDefaultSettings none upd).language
        ∧ (mergeUserSettings kvDefaultSettings none upd).video_quality
          = (mergeUserSettings redisDefaultSettings none upd).video_quality
        ∧ (mergeUserSettings kvDefaultSettings none upd).auto_play
          = upd.auto_play.getD false
        ∧ (mergeUserSettings redisDefaultSettings none upd).auto_play
          = upd.auto_play.getD true)
  ∧ (sget st (kvUserSettingsKey user) = none →
      sget (kvUpdateUserSettings st user themeDark) (kvUserSettingsKey user)
          = some (.vsettings ⟨true, "dark", "zh-CN", false, "auto"⟩)
        ∧ sget (redisUpdateUserSettings st user themeDark) (redisUserSettingsKey user)
          = some (.vsettings ⟨true, "dark", "zh-CN", true, "auto"⟩)) := by
  have hkey : redisUserSettingsKey user = kvUserSettingsKey user := rfl
  refine ⟨?_, ?_, ?_⟩
  · intro s h
    have hk : kvGetUserSettings st user = some s := by
      simp [kvGetUserSettings, jsOrNull, h, truthy]
    have hr : redisGetUserSettings st user = some s := by
      simp [redisGetUserSettings, jsOrNull, hkey, h, truthy]
    simp [kvUpdateUserSettings, redisUpdateUserSettings, kvSetUserSettings,
      redisSetUserSettings, hk, hr, sget_sset_self, hkey,
      mergeUserSettings_some_irrel kvDefaultSettings redisDefaultSettings s upd]
  · intro h
    have hk : kvGetUserSettings st user = none := by
      simp [kvGetUserSettings, jsOrNull, h]
    have hr : redisGetUserSettings st user = some redisDefaultSettings := by
      simp [redisGetUserSettings, jsOrNull, hkey, h]
    refine ⟨?_, ?_, ?_, ?_, ?_, ?_, ?_, ?_⟩
    · simp [kvUpdateUserSettings, kvSetUserSettings, hk, sget_sset_self]
    · simp [redisUpdateUserSettings, redisSetUserSettings, hr, sget_sset_self,
        mergeUserSettings_current_self]
    · simp [mergeUserSettings, kvDefaultSettings, redisDefaultSettings]
    · simp [mergeUserSettings, kvDefaultSettings, redisDefaultSettings]
    · simp [mergeUserSettings, kvDefaultSettings, redisDefaultSettings]
    · simp [mergeUserSettings, kvDefaultSettings, redisDefaultSettings]
    · simp [mergeUserSettings, kvDefaultSettings]
    · simp [mergeUserSettings, redisDefaultSettings]
  · intro h
    have hk : kvGetUserSettings st user = none := by
      simp [kvGetUserSettings, jsOrNull, h]
    have hr : redisGetUserSettings st user = some redisDefaultSettings := by
      simp [redisGetUserSettings, jsOrNull, hkey, h]
    constructor
    · simp [kvUpdateUserSettings, kvSetUserSettings, hk, sget_sset_self]
      decide
    · simp [redisUpdateUserSettings, redisSetUserSettings, hr, sget_sset_self]
      decide

/-- Witness for C4 (amended): a stored-settings state where both
backends write the same record, and the empty state where the written
records differ exactly in `auto_play`. -/
theorem updateUserSettings_cross_backend_amended_witness :
    (sget (kvUpdateUserSettings (kvSetUserSettings Store.empty "frank"
          ⟨false, "light", "en", true, "hd"⟩) "frank" themeDark) (kvUserSettingsKey "frank")
      = sget (redisUpdateUserSettings (kvSetUserSettings Store.empty "frank"
          ⟨false, "light", "en", true, "hd"⟩) "frank" themeDark)
          (redisUserSettingsKey "frank"))
  ∧ (mergeUserSettings kvDefaultSettings none themeDark).auto_play = false
  ∧ (mergeUserSettings redisDefaultSettings none themeDark).auto_play = true := by
  have h1 := updateUserSettings_cross_backend_amended
    (kvSetUserSettings Store.empty "frank" ⟨false, "light", "en", true, "hd"⟩) "frank" themeDark
  have h2 := updateUserSettings_cross_backend_amended Store.empty "frank" themeDark
  refine ⟨h1.1 ⟨false, "light", "en", true, "hd"⟩ (by decide), ?_, ?_⟩
  · have := (h2.2.1 rfl).2.2.2.2.2.2.1
    simpa [themeDark] using this
  · have := (h2.2.1 rfl).2.2.2.2.2.2.2
    simpa [themeDark] using this

/-! ## deleteUser cascade (C1) -/

/-- C1: evaluation at the failing input.  After `deleteUser("bob")` on
backend B, play records, favorites and search history are gone, but
`getAllSkipConfigs("bob")` still returns the stored skip config: the
cascade never touches the `katelyatv:skip_config:...` value keys or
the per-user skip-config index set.  Backend A's cascade empties all
four enumerations. -/
theorem deleteUser_skipConfigs_divergence :
    redisGetAllPlayRecords c1RedisAfter "bob" = []
  ∧ redisGetAllFavorites c1RedisAfter "bob" = []
  ∧ redisGetSearchHistory c1RedisAfter "bob" = []
  ∧ redisGetAllSkipConfigs c1RedisAfter "bob" = [("ep1", .vobj c1Cfg)]
  ∧ kvGetAllPlayRecords c1KvAfter "bob" = []
  ∧ kvGetAllFavorites c1KvAfter "bob" = []
  ∧ kvGetSearchHistory c1KvAfter "bob" = []
  ∧ kvGetAllSkipConfigs c1KvAfter "bob" = [] := by
  refine ⟨?_, ?_, ?_, ?_, ?_, ?_, ?_, ?_⟩ <;> decide

/-! ## Skip-config index maintenance (C3) -/

theorem strData_append (a b : String) : (a ++ b).data = a.data ++ b.data := rfl

/-- The skip-config index-set key is never a skip-config value key
(their fixed prefixes differ at one character). -/
theorem skipIndex_ne_value (u u' k : String) :
    redisSkipConfigsKey u ≠ redisSkipConfigKey u' k := by
  intro h
  have hd : (redisSkipConfigsKey u).data = (redisSkipConfigKey u' k).data :=
    congrArg String.data h
  simp only [redisSkipConfigsKey, redisSkipConfigKey, strData_append] at hd
  repeat injection hd with h hd
  exact absurd h (by decide)

/-- For one user, distinct sub-keys give distinct skip-config value
keys. -/
theorem redisSkipConfigKey_inj (user : String) {k k' : String} :
    redisSkipConfigKey user k = redisSkipConfigKey user k' ↔ k = k' := by
  unfold redisSkipConfigKey
  exact strAppend_right_inj _

theorem mem_smembers_sadd_self (st : Store) (k m x : String) :
    x ∈ smembers (sadd st k m) k ↔ x ∈ smembers st k ∨ x = m := by
  rw [smembers_sadd_self]
  by_cases hc : (smembers st k).contains m
  · rw [if_pos hc]
    have hm : m ∈ smembers st k := by
      have := hc
      simp [List.contains] at this
      exact this
    constructor
    · exact Or.inl
    · rintro (h | h)
      · exact h
      · exact h ▸ hm
  · rw [if_neg hc]
    simp [List.mem_append]

theorem skipIndexExact_set (user key : String) (config : JsonObj) (st : Store)
    (h : skipIndexExact user st) :
    skipIndexExact user (redisSetSkipConfig st user key config) := by
  intro k
  unfold redisSetSkipConfig
  rw [mem_smembers_sadd_self, smembers_sset, sget_sadd]
  by_cases hk : k = key
  · subst hk
    rw [sget_sset_self]
    simp
  · rw [sget_sset_ne st _ (fun he => hk ((redisSkipConfigKey_inj user).mp he))]
    simp [hk, h k]

theorem skipIndexExact_del (user key : String) (st : Store)
    (h : skipIndexExact user st) :
    skipIndexExact user (redisDeleteSkipConfig st user key) := by
  intro k
  unfold redisDeleteSkipConfig
  rw [smembers_srem_self, sget_srem]
  by_cases hk : k = key
  · subst hk
    rw [sget_sdel_self]
    simp [List.mem_filter]
  · rw [sget_sdel_ne _ (fun he => hk ((redisSkipConfigKey_inj user).mp he))]
    rw [smembers_sdel_ne st _ (skipIndex_ne_value user user key)]
    simp [List.mem_filter, bne_iff_ne, hk, h k]

theorem skipIndexExact_empty (user : String) : skipIndexExact user Store.empty := by
  intro k
  simp [smembers, sget, Store.empty, List.lookup]

theorem skipIndexExact_foldl (user : String) (ops : List SkipOp) :
    ∀ st, skipIndexExact user st →
      skipIndexExact user (ops.foldl (redisApplySkipOp user) st) := by
  induction ops with
  | nil => intro st h; exact h
  | cons op t ih =>
    intro st h
    cases op with
    | setCfg key config => exact ih _ (skipIndexExact_set user key config st h)
    | delCfg key => exact ih _ (skipIndexExact_del user key st h)

/-- Counterexample for C3 as stated: on backend A, `setSkipConfig`
writes the config value but maintains no index set at all — the sets
component of the store stays untouched (here: empty), so no set
contains the written sub-key. -/
theorem kvrocks_setSkipConfig_no_index_cex :
    (kvSetSkipConfig Store.empty "bob" "ep1" c1Cfg).sets = []
  ∧ sget (kvSetSkipConfig Store.empty "bob" "ep1" c1Cfg) (kvSkipConfigKey "bob" "ep1")
      = some (.vobj c1Cfg)
  ∧ smembers (kvSetSkipConfig Store.empty "bob" "ep1" c1Cfg) (redisSkipConfigsKey "bob")
      = [] := by
  exact ⟨by decide, by decide, by decide⟩

/-- C3 amended: on backend B, `setSkipConfig` writes the config value
and adds the sub-key to the user's skip-config index set, and after
any sequence of `setSkipConfig` / `deleteSkipConfig` operations from
the empty store the index set contains exactly the sub-keys that have
a stored config value.  Backend A's `setSkipConfig` only writes the
value key and maintains no index set (the sets component of the store
is unchanged); it enumerates by key pattern scan instead. -/
theorem setSkipConfig_index_amended (st : Store) (user key : String) (config : JsonObj) :
    (sget (redisSetSkipConfig st user key config) (redisSkipConfigKey user key)
        = some (.vobj config)
      ∧ key ∈ smembers (redisSetSkipConfig st user key config) (redisSkipConfigsKey user))
  ∧ (∀ ops : List SkipOp, ∀ k,
      k ∈ smembers (ops.foldl (redisApplySkipOp user) Store.empty) (redisSkipConfigsKey user)
        ↔ (sget (ops.foldl (redisApplySkipOp user) Store.empty)
            (redisSkipConfigKey user k)).isSome = true)
  ∧ ((kvSetSkipConfig st user key config).sets = st.sets
      ∧ sget (kvSetSkipConfig st user key config) (kvSkipConfigKey user key)
        = some (.vobj config)) := by
  refine ⟨⟨?_, ?_⟩, ?_, ?_, ?_⟩
  · unfold redisSetSkipConfig
    rw [sget_sadd, sget_sset_self]
  · unfold redisSetSkipConfig
    rw [mem_smembers_sadd_self]
    exact Or.inr rfl
  · intro ops k
    exact skipIndexExact_foldl user ops Store.empty (skipIndexExact_empty user) k
  · rfl
  · exact sget_sset_self st _ _

/-! ## Retry wrapper contract (C6) -/

theorem withRetryGo_succ {α : Type} (attempts : Nat → Except JsErr α)
    (m fuel i w : Nat) :
    withRetryGo attempts m (fuel + 1) i w
      = match attempts i with
        | .ok v => ⟨.ok v, i + 1, w⟩
        | .error e =>
          if isConnectionError e && !(i == m - 1) then
            withRetryGo attempts m fuel (i + 1) (w + 1000 * (i + 1))
          else ⟨.error e, i + 1, w⟩ := rfl

/-- Exhaustive description of a default (three-attempt) `withRetry`
run, by cases on the first three outcomes of the wrapped operation. -/
theorem withRetry3_cases {α : Type} (attempts : Nat → Except JsErr α) :
    (∃ v, attempts 0 = .ok v ∧ withRetry attempts = ⟨.ok v, 1, 0⟩)
  ∨ (∃ e, attempts 0 = .error e ∧ isConnectionError e = false
      ∧ withRetry attempts = ⟨.error e, 1, 0⟩)
  ∨ (∃ e v, attempts 0 = .error e ∧ isConnectionError e = true
      ∧ attempts 1 = .ok v ∧ withRetry attempts = ⟨.ok v, 2, 1000⟩)
  ∨ (∃ e e1, attempts 0 = .error e ∧ isConnectionError e = true
      ∧ attempts 1 = .error e1 ∧ isConnectionError e1 = false
      ∧ withRetry attempts = ⟨.error e1, 2, 1000⟩)
  ∨ (∃ e e1 v, attempts 0 = .error e ∧ isConnectionError e = true
      ∧ attempts 1 = .error e1 ∧ isConnectionError e1 = true
      ∧ attempts 2 = .ok v ∧ withRetry attempts = ⟨.ok v, 3, 3000⟩)
  ∨ (∃ e e1 e2, attempts 0 = .error e ∧ isConnectionError e = true
      ∧ attempts 1 = .error e1 ∧ isConnectionError e1 = true
      ∧ attempts 2 = .error e2 ∧ withRetry attempts = ⟨.error e2, 3, 3000⟩) := by
  have hw : withRetry attempts = withRetryGo attempts 3 3 0 0 := rfl
  cases h0 : attempts 0 with
  | ok v =>
    refine Or.inl ⟨v, rfl, ?_⟩
    rw [hw, show (3 : Nat) = 2 + 1 from rfl, withRetryGo_succ, h0]
  | error e =>
    cases hb0 : isConnectionError e with
    | false =>
      refine Or.inr (Or.inl ⟨e, rfl, hb0, ?_⟩)
      rw [hw, show (3 : Nat) = 2 + 1 from rfl, withRetryGo_succ, h0]
      simp [hb0]
    | true =>
      have step1 : withRetry attempts = withRetryGo attempts 3 2 1 1000 := by
        rw [hw, show (3 : Nat) = 2 + 1 from rfl, withRetryGo_succ, h0]
        simp [hb0]
      cases h1 : attempts 1 with
      | ok v =>
        refine Or.inr (Or.inr (Or.inl ⟨e, v, rfl, hb0, rfl, ?_⟩))
        rw [step1, show (2 : Nat) = 1 + 1 from rfl, withRetryGo_succ, h1]
      | error e1 =>
        cases hb1 : isConnectionError e1 with
        | false =>
          refine Or.inr (Or.inr (Or.inr (Or.inl ⟨e, e1, rfl, hb0, rfl, hb1, ?_⟩)))
          rw [step1, show (2 : Nat) = 1 + 1 from rfl, withRetryGo_succ, h1]
          simp [hb1]
        | true =>
          have step2 : withRetry attempts = withRetryGo attempts 3 1 2 3000 := by
            rw [step1, show (2 : Nat) = 1 + 1 from rfl, withRetryGo_succ, h1]
            simp [hb1]
          cases h2 : attempts 2 with
          | ok v =>
            refine Or.inr (Or.inr (Or.inr (Or.inr (Or.inl
              ⟨e, e1, v, rfl, hb0, rfl, hb1, rfl, ?_⟩))))
            rw [step2, show (1 : Nat) = 0 + 1 from rfl, withRetryGo_succ, h2]
          | error e2 =>
            refine Or.inr (Or.inr (Or.inr (Or.inr (Or.inr
              ⟨e, e1, e2, rfl, hb0, rfl, hb1, rfl, ?_⟩))))
            rw [step2, show (1 : Nat) = 0 + 1 from rfl, withRetryGo_succ, h2]
            simp

/-- C6: the retry wrapper executes the wrapped operation at most 3
times; every re-execution follows a transient (connection-classified)
failure with attempts remaining; a non-transient failure, or a
transient failure on the last attempt, is propagated immediately with
no further waiting; a success on any attempt returns that result; the
cumulative backoff is 1000ms times the attempt number before each
retry (0ms, 1000ms or 1000ms+2000ms in total), so two transient
failures followed by success return the success after 3000ms of
waiting. -/
theorem withRetry_contract (α : Type) (attempts : Nat → Except JsErr α) :
    (withRetry attempts).execs ≤ 3
  ∧ (∀ i, i + 1 < (withRetry attempts).execs →
      ∃ e, attempts i = .error e ∧ isConnectionError e = true ∧ i + 1 < 3)
  ∧ (∀ v, attempts 0 = .ok v → withRetry attempts = ⟨.ok v, 1, 0⟩)
  ∧ (∀ e, attempts 0 = .error e → isConnectionError e = false →
      withRetry attempts = ⟨.error e, 1, 0⟩)
  ∧ (∀ e e1, attempts 0 = .error e → isConnectionError e = true →
      attempts 1 = .error e1 → isConnectionError e1 = false →
      withRetry attempts = ⟨.error e1, 2, 1000⟩)
  ∧ (∀ e e1 e2, attempts 0 = .error e → isConnectionError e = true →
      attempts 1 = .error e1 → isConnectionError e1 = true →
      attempts 2 = .error e2 →
      withRetry attempts = ⟨.error e2, 3, 3000⟩)
  ∧ (∀ e e1 v, attempts 0 = .error e → isConnectionError e = true →
      attempts 1 = .error e1 → isConnectionError e1 = true →
      attempts 2 = .ok v →
      withRetry attempts = ⟨.ok v, 3, 3000⟩
        ∧ 1000 + 2000 ≤ (withRetry attempts).waited)
  ∧ ((withRetry attempts).execs = 1 ∧ (withRetry attempts).waited = 0
      ∨ (withRetry attempts).execs = 2 ∧ (withRetry attempts).waited = 1000
      ∨ (withRetry attempts).execs = 3 ∧ (withRetry attempts).waited = 3000) := by
  rcases withRetry3_cases attempts with
      ⟨v, h0, hR⟩ | ⟨e, h0, hb0, hR⟩ | ⟨e, v, h0, hb0, h1, hR⟩ |
      ⟨e, e1, h0, hb0, h1, hb1, hR⟩ | ⟨e, e1, v, h0, hb0, h1, hb1, h2, hR⟩ |
      ⟨e, e1, e2, h0, hb0, h1, hb1, h2, hR⟩ <;>
    rw [hR] <;>
    refine ⟨?_, ?_, ?_, ?_, ?_, ?_, ?_, ?_⟩
  -- case 1: first attempt succeeds
  · simp
  · intro i hi; simp at hi
  · intro v' hv; rw [h0] at hv; injection hv with hv; subst hv; rfl
  · intro e' he; rw [h0] at he; exact absurd he (by simp)
  · intro e' e1' he; rw [h0] at he; exact absurd he (by simp)
  · intro e' e1' e2' he; rw [h0] at he; exact absurd he (by simp)
  · intro e' e1' v' he; rw [h0] at he; exact absurd he (by simp)
  · exact Or.inl ⟨rfl, rfl⟩
  -- case 2: non-transient failure on the first attempt
  · simp
  · intro i hi; simp at hi
  · intro v' hv; rw [h0] at hv; exact absurd hv (by simp)
  · intro e' he _; rw [h0] at he; injection he with he; subst he; rfl
  · intro e' e1' he hbe _ _; rw [h0] at he; injection he with he; subst he
    rw [hb0] at hbe; exact absurd hbe (by simp)
  · intro e' e1' e2' he hbe _ _ _; rw [h0] at he; injection he with he; subst he
    rw [hb0] at hbe; exact absurd hbe (by simp)
  · intro e' e1' v' he hbe _ _ _; rw [h0] at he; injection he with he; subst he
    rw [hb0] at hbe; exact absurd hbe (by simp)
  · exact Or.inl ⟨rfl, rfl⟩
  -- case 3: transient failure then success
  · simp
  · intro i hi; simp at hi
    have : i = 0 := by omega
    subst this
    exact ⟨e, h0, hb0, by omega⟩
  · intro v' hv; rw [h0] at hv; exact absurd hv (by simp)
  · intro e' he hbe; rw [h0] at he; injection he with he; subst he
    rw [hb0] at hbe; exact absurd hbe (by simp)
  · intro e' e1' _ _ h1' _; rw [h1] at h1'; exact absurd h1' (by simp)
  · intro e' e1' e2' _ _ h1' _ _; rw [h1] at h1'; exact absurd h1' (by simp)
  · intro e' e1' v' _ _ h1' _ _; rw [h1] at h1'; exact absurd h1' (by simp)
  · exact Or.inr (Or.inl ⟨rfl, rfl⟩)
  -- case 4: transient, then non-transient failure
  · simp
  · intro i hi; simp at hi
    have : i = 0 := by omega
    subst this
    exact ⟨e, h0, hb0, by omega⟩
  · intro v' hv; rw [h0] at hv; exact absurd hv (by simp)
  · intro e' he hbe; rw [h0] at he; injection he with he; subst he
    rw [hb0] at hbe; exact absurd hbe (by simp)
  · intro e' e1' _ _ h1' hbe1; rw [h1] at h1'; injection h1' with h1'; subst h1'; rfl
  · intro e' e1' e2' _ _ h1' hbe1 _; rw [h1] at h1'; injection h1' with h1'; subst h1'
    rw [hb1] at hbe1; exact absurd hbe1 (by simp)
  · intro e' e1' v' _ _ h1' hbe1 _; rw [h1] at h1'; injection h1' with h1'; subst h1'
    rw [hb1] at hbe1; exact absurd hbe1 (by simp)
  · exact Or.inr (Or.inl ⟨rfl, rfl⟩)
  -- case 5: two transient failures then success
  · simp
  · intro i hi; simp at hi
    match i, hi with
    | 0, _ => exact ⟨e, h0, hb0, by omega⟩
    | 1, _ => exact ⟨e1, h1, hb1, by omega⟩
  · intro v' hv; rw [h0] at hv; exact absurd hv (by simp)
  · intro e' he hbe; rw [h0] at he; injection he with he; subst he
    rw [hb0] at hbe; exact absurd hbe (by simp)
  · intro e' e1' _ _ h1' hbe1; rw [h1] at h1'; injection h1' with h1'; subst h1'
    rw [hb1] at hbe1; exact absurd hbe1 (by simp)
  · intro e' e1' e2' _ _ _ _ h2'; rw [h2] at h2'; exact absurd h2' (by simp)
  · intro e' e1' v' _ _ _ _ h2'; rw [h2] at h2'; injection h2' with h2'; subst h2'
    exact ⟨rfl, by norm_num⟩
  · exact Or.inr (Or.inr ⟨rfl, rfl⟩)
  -- case 6: two transient failures, then a failure on the last attempt
  · simp
  · intro i hi; simp at hi
    match i, hi with
    | 0, _ => exact ⟨e, h0, hb0, by omega⟩
    | 1, _ => exact ⟨e1, h1, hb1, by omega⟩
  · intro v' hv; rw [h0] at hv; exact absurd hv (by simp)
  · intro e' he hbe; rw [h0] at he; injection he with he; subst he
    rw [hb0] at hbe; exact absurd hbe (by simp)
  · intro e' e1' _ _ h1' hbe1; rw [h1] at h1'; injection h1' with h1'; subst h1'
    rw [hb1] at hbe1; exact absurd hbe1 (by simp)
  · intro e' e1' e2' _ _ _ _ h2'; rw [h2] at h2'; injection h2' with h2'; subst h2'; rfl
  · intro e' e1' v' _ _ _ _ h2'; rw [h2] at h2'; exact absurd h2' (by simp)
  · exact Or.inr (Or.inr ⟨rfl, rfl⟩)

/-- Witness for C6: a transient error on the first two attempts and
success on the third returns the successful result after 3000ms of
cumulative waiting. -/
theorem withRetry_contract_witness :
    withRetry (fun i => if i < 2 then .error ⟨some "ECONNREFUSED", none⟩ else .ok (42 : Nat))
      = ⟨.ok 42, 3, 3000⟩ := by
  have h := withRetry_contract Nat
    (fun i => if i < 2 then .error ⟨some "ECONNREFUSED", none⟩ else .ok (42 : Nat))
  exact (h.2.2.2.2.2.2.1 ⟨some "ECONNREFUSED", none⟩ ⟨some "ECONNREFUSED", none⟩ 42
    rfl (by decide) rfl (by decide) rfl).1

/-! ## Search history (C7) -/

theorem kvHist_apply (user : String) (st : Store) (op : ShOp) :
    kvGetSearchHistory (kvApplyShOp user st op) user
      = shApply (kvGetSearchHistory st user) op := by
  cases op with
  | add q =>
    simp [kvApplyShOp, kvAddSearchHistory, kvGetSearchHistory, ltrim, lpush, lrem,
      shApply, addSearchHistoryList, lrange_lwrite_self, SEARCH_HISTORY_LIMIT]
  | delOne q =>
    simp [kvApplyShOp, kvDeleteSearchHistory, kvGetSearchHistory, lrem,
      shApply, lrange_lwrite_self]
  | delAll =>
    simp [kvApplyShOp, kvDeleteSearchHistory, kvGetSearchHistory, shApply,
      lrange_sdel_self]

theorem redisHist_apply (user : String) (st : Store) (op : ShOp) :
    redisGetSearchHistory (redisApplyShOp user st op) user
      = shApply (redisGetSearchHistory st user) op := by
  cases op with
  | add q =>
    simp [redisApplyShOp, redisAddSearchHistory, redisGetSearchHistory, ltrim, lpush, lrem,
      shApply, addSearchHistoryList, lrange_lwrite_self, SEARCH_HISTORY_LIMIT]
  | delOne q =>
    simp [redisApplyShOp, redisDeleteSearchHistory, redisGetSearchHistory, lrem,
      shApply, lrange_lwrite_self]
  | delAll =>
    simp [redisApplyShOp, redisDeleteSearchHistory, redisGetSearchHistory, shApply,
      lrange_sdel_self]

theorem hist_foldl_general (F : Store → ShOp → Store) (G : Store → List String)
    (hc : ∀ st op, G (F st op) = shApply (G st) op) :
    ∀ (ops : List ShOp) (st : Store), G (ops.foldl F st) = ops.foldl shApply (G st) := by
  intro ops
  induction ops with
  | nil => intro st; rfl
  | cons op t ih =>
    intro st
    rw [List.foldl_cons, List.foldl_cons, ih, hc]

theorem shApply_bounded_nodup (l : List String) (op : ShOp)
    (h : l.length ≤ SEARCH_HISTORY_LIMIT ∧ l.Nodup) :
    (shApply l op).length ≤ SEARCH_HISTORY_LIMIT ∧ (shApply l op).Nodup := by
  cases op with
  | add q =>
    constructor
    · simp only [shApply, addSearchHistoryList, List.length_take]
      exact Nat.min_le_left _ _
    · have hnd : (q :: l.filter (fun s => s != q)).Nodup := by
        refine List.nodup_cons.mpr ⟨?_, h.2.filter _⟩
        intro hq
        have := List.of_mem_filter hq
        simp at this
      exact (List.take_sublist _ _).nodup hnd
  | delOne q =>
    exact ⟨le_trans (List.length_filter_le _ _) h.1, h.2.filter _⟩
  | delAll => simp [shApply]

theorem shInv_foldl (ops : List ShOp) :
    ∀ l, l.length ≤ SEARCH_HISTORY_LIMIT ∧ l.Nodup →
      (ops.foldl shApply l).length ≤ SEARCH_HISTORY_LIMIT ∧ (ops.foldl shApply l).Nodup := by
  induction ops with
  | nil => intro l h; exact h
  | cons op t ih =>
    intro l h
    exact ih _ (shApply_bounded_nodup l op h)

theorem addSearchHistoryList_headq (l : List String) (q : String) :
    (addSearchHistoryList l q).head? = some q := by
  unfold addSearchHistoryList SEARCH_HISTORY_LIMIT
  rw [show (20 : Nat) = 19 + 1 from rfl, List.take_succ_cons]
  rfl

theorem addSearchHistoryList_count (l : List String) (q : String) :
    (addSearchHistoryList l q).count q = 1 := by
  unfold addSearchHistoryList SEARCH_HISTORY_LIMIT
  rw [show (20 : Nat) = 19 + 1 from rfl, List.take_succ_cons, List.count_cons_self]
  have h0 : (l.filter (fun s => s != q)).count q = 0 := by
    rw [List.count_eq_zero]
    intro hq
    have := List.of_mem_filter hq
    simp at this
  have hle := (List.take_sublist 19 (l.filter (fun s => s != q))).count_le q
  omega

theorem addSearchHistoryList_idem (l : List String) (q : String) :
    addSearchHistoryList (addSearchHistoryList l q) q = addSearchHistoryList l q := by
  unfold addSearchHistoryList SEARCH_HISTORY_LIMIT
  rw [show (20 : Nat) = 19 + 1 from rfl]
  simp only [List.take_succ_cons]
  have h0 : ∀ x ∈ (l.filter (fun s => s != q)).take 19, (x != q) = true := by
    intro x hx
    have hx2 : x ∈ l.filter (fun s => s != q) := List.take_subset _ _ hx
    have h3 := List.of_mem_filter hx2
    simpa using h3
  rw [List.filter_cons]
  simp only [bne_self_eq_false, Bool.false_eq_true, if_false]
  rw [List.filter_eq_self.mpr h0, List.take_take]
  norm_num

theorem foldl_add_nodup (qs : List String) (h : qs.Nodup) :
    List.foldl addSearchHistoryList [] qs = qs.reverse.take SEARCH_HISTORY_LIMIT := by
  induction qs using List.reverseRecOn with
  | nil => rfl
  | append_singleton qs q ih =>
    obtain ⟨h1, _, hdisj⟩ := List.nodup_append.mp h
    have hq : q ∉ qs := fun hmem => hdisj hmem (List.mem_singleton_self q)
    rw [List.foldl_append, List.foldl_cons, List.foldl_nil, ih h1]
    unfold addSearchHistoryList
    have hfilt : (qs.reverse.take SEARCH_HISTORY_LIMIT).filter (fun s => s != q)
        = qs.reverse.take SEARCH_HISTORY_LIMIT := by
      rw [List.filter_eq_self]
      intro a ha
      have haq : a ∈ qs := List.mem_reverse.mp (List.take_subset _ _ ha)
      simp only [bne_iff_ne, ne_eq, decide_eq_true_eq]
      exact fun he => hq (he ▸ haq)
    rw [hfilt, List.reverse_append, List.reverse_singleton, List.singleton_append]
    unfold SEARCH_HISTORY_LIMIT
    rw [show (20 : Nat) = 19 + 1 from rfl, List.take_succ_cons, List.take_succ_cons,
      List.take_take]
    norm_num

/-- C7: starting from an empty history, after any sequence of
`addSearchHistory` / `deleteSearchHistory` operations the stored
search history has at most 20 entries and no duplicate; `add` places
the query at the front with exactly one occurrence (removing any old
occurrence), adding the same query twice is the same as adding it
once; and adding 21 distinct queries leaves exactly the most recent
20, most-recent-first — on both backends. -/
theorem searchHistory_invariants :
    (∀ (user : String) (ops : List ShOp),
      (kvGetSearchHistory (ops.foldl (kvApplyShOp user) Store.empty) user).length
          ≤ SEARCH_HISTORY_LIMIT
        ∧ (kvGetSearchHistory (ops.foldl (kvApplyShOp user) Store.empty) user).Nodup)
  ∧ (∀ (user : String) (ops : List ShOp),
      (redisGetSearchHistory (ops.foldl (redisApplyShOp user) Store.empty) user).length
          ≤ SEARCH_HISTORY_LIMIT
        ∧ (redisGetSearchHistory (ops.foldl (redisApplyShOp user) Store.empty) user).Nodup)
  ∧ (∀ (st : Store) (user q : String),
      (kvGetSearchHistory (kvAddSearchHistory st user q) user).head? = some q
        ∧ (kvGetSearchHistory (kvAddSearchHistory st user q) user).count q = 1
        ∧ kvGetSearchHistory (kvAddSearchHistory (kvAddSearchHistory st user q) user q) user
            = kvGetSearchHistory (kvAddSearchHistory st user q) user)
  ∧ (∀ (st : Store) (user q : String),
      (redisGetSearchHistory (redisAddSearchHistory st user q) user).head? = some q
        ∧ (redisGetSearchHistory (redisAddSearchHistory st user q) user).count q = 1
        ∧ redisGetSearchHistory
              (redisAddSearchHistory (redisAddSearchHistory st user q) user q) user
            = redisGetSearchHistory (redisAddSearchHistory st user q) user)
  ∧ (∀ (user : String) (qs : List String), qs.Nodup → qs.length = 21 →
      kvGetSearchHistory ((qs.map ShOp.add).foldl (kvApplyShOp user) Store.empty) user
          = qs.reverse.take SEARCH_HISTORY_LIMIT
        ∧ (kvGetSearchHistory ((qs.map ShOp.add).foldl (kvApplyShOp user) Store.empty)
            user).length = SEARCH_HISTORY_LIMIT)
  ∧ (∀ (user : String) (qs : List String), qs.Nodup → qs.length = 21 →
      redisGetSearchHistory ((qs.map ShOp.add).foldl (redisApplyShOp user) Store.empty) user
          = qs.reverse.take SEARCH_HISTORY_LIMIT
        ∧ (redisGetSearchHistory ((qs.map ShOp.add).foldl (redisApplyShOp user) Store.empty)
            user).length = SEARCH_HISTORY_LIMIT) := by
  have hkvf := fun (user : String) =>
    hist_foldl_general (kvApplyShOp user) (fun st => kvGetSearchHistory st user)
      (fun st op => kvHist_apply user st op)
  have hrdf := fun (user : String) =>
    hist_foldl_general (redisApplyShOp user) (fun st => redisGetSearchHistory st user)
      (fun st op => redisHist_apply user st op)
  have hmap : (fun (x : List String) (y : String) => shApply x (ShOp.add y))
      = addSearchHistoryList := by
    funext x y
    rfl
  refine ⟨?_, ?_, ?_, ?_, ?_, ?_⟩
  · intro user ops
    have h := hkvf user ops Store.empty
    simp only at h
    rw [h, show kvGetSearchHistory Store.empty user = [] from rfl]
    exact shInv_foldl ops [] ⟨by simp, List.nodup_nil⟩
  · intro user ops
    have h := hrdf user ops Store.empty
    simp only at h
    rw [h, show redisGetSearchHistory Store.empty user = [] from rfl]
    exact shInv_foldl ops [] ⟨by simp, List.nodup_nil⟩
  · intro st user q
    have h1 : kvGetSearchHistory (kvAddSearchHistory st user q) user
        = addSearchHistoryList (kvGetSearchHistory st user) q :=
      kvHist_apply user st (.add q)
    have h2 : kvGetSearchHistory
          (kvAddSearchHistory (kvAddSearchHistory st user q) user q) user
        = addSearchHistoryList (kvGetSearchHistory (kvAddSearchHistory st user q) user) q :=
      kvHist_apply user (kvAddSearchHistory st user q) (.add q)
    refine ⟨?_, ?_, ?_⟩
    · rw [h1]; exact addSearchHistoryList_headq _ _
    · rw [h1]; exact addSearchHistoryList_count _ _
    · rw [h2, h1, addSearchHistoryList_idem]
  · intro st user q
    have h1 : redisGetSearchHistory (redisAddSearchHistory st user q) user
        = addSearchHistoryList (redisGetSearchHistory st user) q :=
      redisHist_apply user st (.add q)
    have h2 : redisGetSearchHistory
          (redisAddSearchHistory (redisAddSearchHistory st user q) user q) user
        = addSearchHistoryList (redisGetSearchHistory (redisAddSearchHistory st user q) user)
            q :=
      redisHist_apply user (redisAddSearchHistory st user q) (.add q)
    refine ⟨?_, ?_, ?_⟩
    · rw [h1]; exact addSearchHistoryList_headq _ _
    · rw [h1]; exact addSearchHistoryList_count _ _
    · rw [h2, h1, addSearchHistoryList_idem]
  · intro user qs hnd hlen
    have h := hkvf user (qs.map ShOp.add) Store.empty
    simp only at h
    rw [show kvGetSearchHistory Store.empty user = [] from rfl] at h
    have h4 : List.foldl shApply [] (qs.map ShOp.add)
        = List.foldl addSearchHistoryList [] qs := by
      rw [List.foldl_map, hmap]
    rw [h, h4, foldl_add_nodup qs hnd]
    refine ⟨rfl, ?_⟩
    rw [List.length_take, List.length_reverse, hlen]
    rfl
  · intro user qs hnd hlen
    have h := hrdf user (qs.map ShOp.add) Store.empty
    simp only at h
    rw [show redisGetSearchHistory Store.empty user = [] from rfl] at h
    have h4 : List.foldl shApply [] (qs.map ShOp.add)
        = List.foldl addSearchHistoryList [] qs := by
      rw [List.foldl_map, hmap]
    rw [h, h4, foldl_add_nodup qs hnd]
    refine ⟨rfl, ?_⟩
    rw [List.length_take, List.length_reverse, hlen]
    rfl

/-- Witness for C7: 21 concrete distinct queries on each backend leave
exactly the most recent 20. -/
theorem searchHistory_invariants_witness :
    (["a01", "a02", "a03", "a04", "a05", "a06", "a07", "a08", "a09", "a10", "a11",
        "a12", "a13", "a14", "a15", "a16", "a17", "a18", "a19", "a20", "a21"]
      : List String).Nodup
  ∧ kvGetSearchHistory
        (((["a01", "a02", "a03", "a04", "a05", "a06", "a07", "a08", "a09", "a10", "a11",
            "a12", "a13", "a14", "a15", "a16", "a17", "a18", "a19", "a20", "a21"]).map
          ShOp.add).foldl (kvApplyShOp "u") Store.empty) "u"
      = (["a01", "a02", "a03", "a04", "a05", "a06", "a07", "a08", "a09", "a10", "a11",
          "a12", "a13", "a14", "a15", "a16", "a17", "a18", "a19", "a20",
          "a21"]).reverse.take SEARCH_HISTORY_LIMIT
  ∧ redisGetSearchHistory
        (((["a01", "a02", "a03", "a04", "a05", "a06", "a07", "a08", "a09", "a10", "a11",
            "a12", "a13", "a14", "a15", "a16", "a17", "a18", "a19", "a20", "a21"]).map
          ShOp.add).foldl (redisApplyShOp "u") Store.empty) "u"
      = (["a01", "a02", "a03", "a04", "a05", "a06", "a07", "a08", "a09", "a10", "a11",
          "a12", "a13", "a14", "a15", "a16", "a17", "a18", "a19", "a20",
          "a21"]).reverse.take SEARCH_HISTORY_LIMIT := by
  have h := searchHistory_invariants
  exact ⟨by decide, (h.2.2.2.2.1 "u" _ (by decide) (by decide)).1,
    (h.2.2.2.2.2 "u" _ (by decide) (by decide)).1⟩
